import Mathlib

/-!
# Verification of the package-email HTML parser

Shallow embedding of `src/parser.py` (`parse_package_email` and its
helpers).  The HTML body is modelled as an already-parsed document tree
(`NodeList`), matching the data model of the specification: the external
HTML-parsing collaborator supplies the tree and the core only traverses
it.  An empty document models the empty input body.  Python strings are
modelled as `List Char`; the BeautifulSoup operations the source uses
(`find_all`, `get_text( " ", strip=True)`, `stripped_strings`,
`decompose`, parent walking, attribute access) are modelled as explicit
tree traversals.
-/

/-- Python `\s` / `str.strip` whitespace characters (ASCII range). -/
def pySpace (c : Char) : Bool :=
  c == ' ' || c == '\t' || c == '\n' || c == '\r' || c == '\x0b' || c == '\x0c'

/-- Python `str.lstrip()`. -/
def lstripChars (s : List Char) : List Char := s.dropWhile pySpace

/-- Python `str.rstrip()`. -/
def rstripChars (s : List Char) : List Char := (s.reverse.dropWhile pySpace).reverse

/-- Python `str.strip()`. -/
def stripChars (s : List Char) : List Char := rstripChars (lstripChars s)

/-- Python `str.upper()` (ASCII). -/
def upperChars (s : List Char) : List Char := s.map Char.toUpper

/-- Python `str.rstrip( ":")`: drop all trailing colons. -/
def rstripColon (s : List Char) : List Char := (s.reverse.dropWhile (fun c => c = ':')).reverse

/-- Python substring test `needle in haystack`. -/
def containsSub (needle haystack : List Char) : Bool :=
  haystack.tails.any (fun t => needle.isPrefixOf t)

/-- Python `text.endswith( ":")`. -/
def endsWithColon (s : List Char) : Bool := [':'].isSuffixOf s

/-- One collapsing pass of `re.sub(r'\s+', ' ', text)`: every maximal run
of whitespace becomes a single space.  The flag records whether the
previous character was part of a whitespace run. -/
def collapseWsAux : Bool → List Char → List Char
  | _, [] => []
  | prevSpace, c :: cs =>
      if pySpace c then
        if prevSpace then collapseWsAux true cs
        else ' ' :: collapseWsAux true cs
      else c :: collapseWsAux false cs

/-- Model of `_clean_text` from `src/parser.py`: `re.sub` of one-or-more whitespace to a single space, then `strip()`. -/
def _clean_text (s : List Char) : List Char := stripChars (collapseWsAux false s)

/-- Regex word character (`\w`, ASCII). -/
def isWordChar (c : Char) : Bool := c.isAlphanum || c == '_'

/-- A `\b` word boundary placed just after a word character, given the
remaining text. -/
def wordBoundaryAfterWord (t : List Char) : Bool :=
  match t with
  | [] => true
  | c :: _ => !(isWordChar c)

/-- A `\b` word boundary placed just after a non-word character (`%`),
given the remaining text. -/
def wordBoundaryAfterNonword (t : List Char) : Bool :=
  match t with
  | [] => false
  | c :: _ => isWordChar c

/-- The tail of the hidden-span style regex of `src/parser.py`:
`(?:0(?:px|pt|%)?|1pt)\b`, matched against the text following
`font-size:` and any whitespace. -/
def fontSizeAltMatch : List Char → Bool
  | '0' :: t =>
      (match t with
       | 'p' :: 'x' :: u => wordBoundaryAfterWord u
       | _ => false) ||
      (match t with
       | 'p' :: 't' :: u => wordBoundaryAfterWord u
       | _ => false) ||
      (match t with
       | '%' :: u => wordBoundaryAfterNonword u
       | _ => false) ||
      wordBoundaryAfterWord t
  | '1' :: 'p' :: 't' :: u => wordBoundaryAfterWord u
  | _ => false

/-- Model of the `re.search` on the hidden-span style pattern in
`src/parser.py`: scan every start position for the literal `font-size:`,
skip whitespace greedily, then try the size alternatives. -/
def fontSizeHiddenSearch : List Char → Bool
  | [] => false
  | c :: rest =>
      (( "font-size:".data.isPrefixOf (c :: rest)) &&
        fontSizeAltMatch (((c :: rest).drop 10).dropWhile pySpace)) ||
      fontSizeHiddenSearch rest

/- ── Document tree ──────────────────────────────────────────────────── -/

mutual
/-- A node of the parsed HTML document: an element with tag name,
attribute list and children, or a text node. -/
inductive Node where
  | elem (tag : List Char) (attrs : List (List Char × List Char)) (children : NodeList) : Node
  | text (s : List Char) : Node
/-- A sibling list of document nodes. -/
inductive NodeList where
  | nil : NodeList
  | cons (n : Node) (ns : NodeList) : NodeList
end

mutual
def nodeDecEq : (a b : Node) → Decidable (a = b)
  | Node.elem t₁ a₁ c₁, Node.elem t₂ a₂ c₂ =>
      match decEq t₁ t₂ with
      | isFalse h => isFalse (by simp_all)
      | isTrue h₁ =>
        match decEq a₁ a₂ with
        | isFalse h => isFalse (by simp_all)
        | isTrue h₂ =>
          match nodeListDecEq c₁ c₂ with
          | isFalse h => isFalse (by simp_all)
          | isTrue h₃ => isTrue (by simp_all)
  | Node.elem _ _ _, Node.text _ => isFalse (by simp)
  | Node.text _, Node.elem _ _ _ => isFalse (by simp)
  | Node.text s₁, Node.text s₂ =>
      match decEq s₁ s₂ with
      | isFalse h => isFalse (by simp_all)
      | isTrue h => isTrue (by simp_all)
def nodeListDecEq : (a b : NodeList) → Decidable (a = b)
  | NodeList.nil, NodeList.nil => isTrue rfl
  | NodeList.nil, NodeList.cons _ _ => isFalse (by simp)
  | NodeList.cons _ _, NodeList.nil => isFalse (by simp)
  | NodeList.cons n₁ ns₁, NodeList.cons n₂ ns₂ =>
      match nodeDecEq n₁ n₂ with
      | isFalse h => isFalse (by simp_all)
      | isTrue h₁ =>
        match nodeListDecEq ns₁ ns₂ with
        | isFalse h => isFalse (by simp_all)
        | isTrue h₂ => isTrue (by simp_all)
end

instance : DecidableEq Node := nodeDecEq
instance : DecidableEq NodeList := nodeListDecEq

/-- Build a sibling list from a plain list (notation convenience). -/
def NL : List Node → NodeList
  | [] => NodeList.nil
  | n :: ns => NodeList.cons n (NL ns)

/-- The plain list of a sibling list. -/
def NodeList.toList : NodeList → List Node
  | NodeList.nil => []
  | NodeList.cons n ns => n :: ns.toList

/-- The tag of an element (`cell.name`); text nodes have no tag. -/
def nodeTag : Node → List Char
  | Node.elem t _ _ => t
  | Node.text _ => []

/-- BeautifulSoup attribute lookup `tag.get(key)` / `tag[key]`. -/
def attrLookup (attrs : List (List Char × List Char)) (key : List Char) :
    Option (List Char) :=
  (attrs.find? (fun p => p.1 == key)).map Prod.snd

/-- The hidden-span test of `src/parser.py`:
`soup.find_all( "span", style=lambda s: s and re.search(...))` applied to
one node — a `span` element whose `style` attribute matches the
font-size pattern. -/
def isHiddenNode : Node → Bool
  | Node.text _ => false
  | Node.elem tag attrs _ =>
      (tag == "span".data) &&
      (match attrLookup attrs "style".data with
       | some s => (s != []) && fontSizeHiddenSearch s
       | none => false)

mutual
/-- Prune hidden spans inside a kept node (`span.decompose()` pass). -/
def removeHiddenNode : Node → Node
  | Node.text s => Node.text s
  | Node.elem t a ch => Node.elem t a (removeHiddenList ch)
/-- Prune hidden spans from a sibling list: a matching span is dropped
with its whole subtree, other nodes are kept and pruned inside. -/
def removeHiddenList : NodeList → NodeList
  | NodeList.nil => NodeList.nil
  | NodeList.cons n ns =>
      if isHiddenNode n then removeHiddenList ns
      else NodeList.cons (removeHiddenNode n) (removeHiddenList ns)
end

mutual
/-- The stripped descendant strings of one node, in document order:
BeautifulSoup `stripped_strings` (each string stripped, empty results
skipped). -/
def textSegsN : Node → List (List Char)
  | Node.text s => if stripChars s = [] then [] else [stripChars s]
  | Node.elem _ _ ch => textSegsL ch
/-- The stripped descendant strings of a sibling list. -/
def textSegsL : NodeList → List (List Char)
  | NodeList.nil => []
  | NodeList.cons n ns => textSegsN n ++ textSegsL ns
end

/-- BeautifulSoup `node.get_text( " ", strip=True)`: the stripped
descendant strings joined by a single space. -/
def get_text (n : Node) : List Char := List.intercalate [' '] (textSegsN n)

mutual
/-- Model of `find_all` restricted to a tag/attribute predicate, on one node:
the node itself if it matches, then its matching descendants, in
document order. -/
def findElemsN (p : List Char → List (List Char × List Char) → Bool) :
    Node → List Node
  | Node.text _ => []
  | Node.elem t a ch =>
      (if p t a then [Node.elem t a ch] else []) ++ findElemsL p ch
/-- Model of `find_all` restricted to a tag/attribute predicate, on a sibling
list. -/
def findElemsL (p : List Char → List (List Char × List Char) → Bool) :
    NodeList → List Node
  | NodeList.nil => []
  | NodeList.cons n ns => findElemsN p n ++ findElemsL p ns
end

/-- Constant `_SECTION_HEADERS` from `src/parser.py`: section header text that
must not be treated as field labels. -/
def _SECTION_HEADERS : List (List Char) :=
  [ "SITE TIMELINES".data, "DOWNLOAD LINKS".data, "COP LINKS".data,
   "ADDITIONAL NOTES".data, "PENDING ITEMS".data,
   "CLOSE OUT PACKAGE".data, "LANDLORD CLOSE OUT PACKAGE".data,
   "POST MODIFICATION INSPECTION CLOSE OUT PACKAGE".data,
   "48 HOUR PACKAGE REVIEW".data,
   "PACKAGE SUMMARY".data, "CATEGORY".data, "STATUS".data,
   "ADDITIONAL PACKAGES REQUIRED".data]

/-- Constant `_HEADER_PATTERNS` from `src/parser.py`, in source order. -/
def _HEADER_PATTERNS : List (List Char) :=
  [ "LANDLORD CLOSE OUT PACKAGE".data,
   "CLOSE OUT PACKAGE".data,
   "48 HOUR PACKAGE".data,
   "PACKAGE REVIEW".data]

/-- The leftmost match of `re.search(r'CLOSE OUT PACKAGE\s+(\w+)', t)`:
the maximal word following the phrase and at least one whitespace
character; `None` when no position matches. -/
def copFollowWord : List Char → Option (List Char)
  | [] => none
  | c :: rest =>
      if ( "CLOSE OUT PACKAGE".data.isPrefixOf (c :: rest)) ∧
         ((c :: rest).drop 17).takeWhile pySpace ≠ [] ∧
         (((c :: rest).drop 17).dropWhile pySpace).takeWhile isWordChar ≠ [] then
        some ((((c :: rest).drop 17).dropWhile pySpace).takeWhile isWordChar)
      else copFollowWord rest

/-- Function `_extract_package_type` from `src/parser.py`. -/
def _extract_package_type (header_text : List Char) : List Char :=
  let t := upperChars header_text
  if containsSub "POST MODIFICATION INSPECTION".data t then "PMI".data
  else if containsSub "LANDLORD".data t ∧ containsSub "CLOSE OUT PACKAGE".data t then
    "LL COP".data
  else if containsSub "48 HOUR".data t ∨ containsSub "48HR".data t then
    if containsSub "REVIEW".data t then "48HR REVIEW".data
    else if containsSub "REVISION".data t then "48HR REVISION".data
    else "48HR".data
  else if containsSub "REVIEW".data t then "REVIEW".data
  else if containsSub "REVISION".data t then "REVISION".data
  else if containsSub "CLOSE OUT PACKAGE".data t then
    match copFollowWord t with
    | some w => w
    | none => "UNKNOWN".data
  else "UNKNOWN".data

/-- The header-cell test of step 1 of `parse_package_email`: a `th` or
`td` whose cleaned, uppercased text contains one of the header
patterns. -/
def isHeaderCell (n : Node) : Bool :=
  (nodeTag n == "th".data || nodeTag n == "td".data) &&
  _HEADER_PATTERNS.any
    (fun p => containsSub p (upperChars (_clean_text (get_text n))))

mutual
/-- Find the first header cell in document order, carrying the ancestor
chain (nearest ancestor first) — models the `soup.find_all([ "th","td"])`
scan plus the later parent walk of `src/parser.py`. -/
def findHeaderN (anc : List Node) : Node → Option (Node × List Node)
  | Node.text _ => none
  | Node.elem t a ch =>
      if isHeaderCell (Node.elem t a ch) then some (Node.elem t a ch, anc)
      else findHeaderL (Node.elem t a ch :: anc) ch
/-- Find the first header cell in a sibling list. -/
def findHeaderL (anc : List Node) : NodeList → Option (Node × List Node)
  | NodeList.nil => none
  | NodeList.cons n ns =>
      match findHeaderN anc n with
      | some r => some r
      | none => findHeaderL anc ns
end

/-- Step 2 of `parse_package_email`: walk the ancestor chain up to the
nearest `table` element. -/
def findTableAnc : List Node → Option Node
  | [] => none
  | n :: rest => if nodeTag n = "table".data then some n else findTableAnc rest

/-- The header-text selection of `parse_package_email`: the first
stripped string of the header cell that contains a header pattern, or
the empty string. -/
def headerTextOf (cell : Node) : List Char :=
  match (textSegsN cell).find?
      (fun s => _HEADER_PATTERNS.any (fun p => containsSub p (upperChars s))) with
  | some s => s
  | none => []

/-- Model of the row collection of `src/parser.py`: all `tr` descendants of the table, in
document order (rows of nested tables included). -/
def tableRows : Node → List Node
  | Node.text _ => []
  | Node.elem _ _ ch => findElemsL (fun t _ => t = "tr".data) ch

/-- Model of the direct-cell collection of a row: the direct child cells
of a row. -/
def directCells : Node → List Node
  | Node.text _ => []
  | Node.elem _ _ ch =>
      ch.toList.filter (fun n => nodeTag n = "th".data ∨ nodeTag n = "td".data)

/-- The hrefs of `row.find_all( "a", href=True)`, in document order. -/
def rowHrefs : Node → List (List Char)
  | Node.text _ => []
  | Node.elem _ _ ch =>
      (findElemsL (fun t a => t = "a".data ∧ (attrLookup a "href".data).isSome) ch).map
        (fun n => match n with
          | Node.elem _ a _ => (attrLookup a "href".data).getD []
          | Node.text _ => [])

/-- One step of the URL loop of `parse_package_email`: record the first
href containing `dropbox.com`, else the first containing
`swiftprojects.io`. -/
def linkStep (ds : Option (List Char) × Option (List Char)) (href : List Char) :
    Option (List Char) × Option (List Char) :=
  if containsSub "dropbox.com".data href ∧ ds.1 = none then (some href, ds.2)
  else if containsSub "swiftprojects.io".data href ∧ ds.2 = none then (ds.1, some href)
  else ds

/-- Model of `if label not in fields` followed by the assignment — Python dict
insertion with first-occurrence-wins, preserving insertion order. -/
def insertIfAbsent (fields : List (List Char × List Char))
    (label value : List Char) : List (List Char × List Char) :=
  if fields.any (fun p => p.1 == label) then fields else fields ++ [(label, value)]

/-- The label computed from a label cell's text:
`text.rstrip( ":").strip()`. -/
def labelOfText (text : List Char) : List Char := stripChars (rstripColon text)

/-- The `while i < len(cells)` scan of `parse_package_email`: pair a
label cell with the immediately following cell, skip empty and
section-header labels by one cell, insert surviving pairs
first-occurrence-wins, and otherwise advance one cell. -/
def processCells : List Node → List (List Char × List Char) → List (List Char × List Char)
  | [], fields => fields
  | cell :: rest, fields =>
      match rest with
      | [] => fields
      | next :: rest' =>
          if nodeTag cell = "th".data ∨ endsWithColon (_clean_text (get_text cell)) then
            if labelOfText (_clean_text (get_text cell)) = [] ∨
               upperChars (labelOfText (_clean_text (get_text cell))) ∈ _SECTION_HEADERS then
              processCells (next :: rest') fields
            else
              processCells rest'
                (insertIfAbsent fields (labelOfText (_clean_text (get_text cell)))
                  (_clean_text (get_text next)))
          else processCells (next :: rest') fields

/-- The state threaded through the row loop of `parse_package_email`. -/
structure RowState where
  fields : List (List Char × List Char)
  dropbox_url : Option (List Char)
  swift_url : Option (List Char)
deriving Repr, DecidableEq

/-- One iteration of the `for row in pkg_table.find_all( "tr")` loop:
update the URLs from the row's anchors, then scan the row's direct
cells for label:value pairs. -/
def processRow (st : RowState) (row : Node) : RowState :=
  let links := (rowHrefs row).foldl linkStep (st.dropbox_url, st.swift_url)
  { fields := processCells (directCells row) st.fields,
    dropbox_url := links.1,
    swift_url := links.2 }

/-- The result dictionary of `parse_package_email`.  `none` on an
`Option (Option _)` field models a key absent from the returned dict;
`some none` models a key present with value `None`. -/
structure ParseResult where
  package_type : Option (List Char)
  fields : Option (List (List Char × List Char))
  dropbox_url : Option (Option (List Char))
  swift_url : Option (Option (List Char))
  parse_error : Option (List Char)
deriving Repr, DecidableEq

/-- The body of `parse_package_email` after the hidden-span removal:
header location, classification, table resolution, field and link
extraction, and result composition. -/
def parseSoup (soup : NodeList) : ParseResult :=
  match findHeaderL [] soup with
  | none =>
      { package_type := none, fields := none, dropbox_url := none,
        swift_url := none, parse_error := some "no package header found".data }
  | some (header_cell, anc) =>
      let package_type := _extract_package_type (_clean_text (headerTextOf header_cell))
      match findTableAnc anc with
      | none =>
          { package_type := some package_type, fields := none, dropbox_url := none,
            swift_url := none, parse_error := some "could not find package table".data }
      | some pkg_table =>
          let st := (tableRows pkg_table).foldl processRow
            { fields := [], dropbox_url := none, swift_url := none }
          if st.fields = [] then
            { package_type := some package_type, fields := none, dropbox_url := none,
              swift_url := none,
              parse_error := some "table found but no label:value pairs extracted".data }
          else
            { package_type := some package_type, fields := some st.fields,
              dropbox_url := some st.dropbox_url, swift_url := some st.swift_url,
              parse_error := none }

/-- Function `parse_package_email` from `src/parser.py`.  The input is the parsed
document tree; the empty tree models the empty (falsy) `html_body`. -/
def parse_package_email (body : NodeList) : ParseResult :=
  if body = NodeList.nil then
    { package_type := none, fields := none, dropbox_url := none,
      swift_url := none, parse_error := some "empty body".data }
  else parseSoup (removeHiddenList body)

/- ── Derived observers used by the claim statements ─────────────────── -/

/-- The rows of the resolved package table of a body (empty when any
stage up to table resolution fails). -/
def resolvedRows (body : NodeList) : List Node :=
  match findHeaderL [] (removeHiddenList body) with
  | none => []
  | some (_, anc) =>
      match findTableAnc anc with
      | none => []
      | some pkg_table => tableRows pkg_table

/-- The label:value pairs produced by the cell scan, in traversal order,
with no deduplication (the pair stream that feeds the dict
insertions). -/
def cellPairs : List Node → List (List Char × List Char)
  | [] => []
  | cell :: rest =>
      match rest with
      | [] => []
      | next :: rest' =>
          if nodeTag cell = "th".data ∨ endsWithColon (_clean_text (get_text cell)) then
            if labelOfText (_clean_text (get_text cell)) = [] ∨
               upperChars (labelOfText (_clean_text (get_text cell))) ∈ _SECTION_HEADERS then
              cellPairs (next :: rest')
            else
              (labelOfText (_clean_text (get_text cell)), _clean_text (get_text next)) ::
                cellPairs rest'
          else cellPairs (next :: rest')

/-- All label:value pairs of a body's resolved table, in document
order. -/
def allPairs (body : NodeList) : List (List Char × List Char) :=
  (resolvedRows body).flatMap (fun row => cellPairs (directCells row))

/-- All anchor hrefs of a body's resolved table, in the order the row
loop visits them. -/
def allHrefs (body : NodeList) : List (List Char) :=
  (resolvedRows body).flatMap rowHrefs

/-- First-occurrence lookup in an ordered label:value list. -/
def lookupField (f : List (List Char × List Char)) (l : List Char) :
    Option (List Char) :=
  (f.find? (fun p => p.1 == l)).map Prod.snd

/- ── Concrete document trees used by the claim scenarios ────────────── -/

/-- The body of Scenario 1:
`<table><tr><th>Close Out Package Review</th></tr><tr><td>Site ID:</td><td>ABC123</td></tr></table>`. -/
def c1Body : NodeList :=
  NL [Node.elem "table".data []
    (NL [Node.elem "tr".data [] (NL [Node.elem "th".data []
            (NL [Node.text "Close Out Package Review".data])]),
         Node.elem "tr".data [] (NL [
            Node.elem "td".data [] (NL [Node.text "Site ID:".data]),
            Node.elem "td".data [] (NL [Node.text "ABC123".data])])])]

/-- Scenario 5 body: two rows both labelled `GC Name:` with values
`Acme` then `Other`. -/
def gcBody : NodeList :=
  NL [Node.elem "table".data []
    (NL [Node.elem "tr".data [] (NL [Node.elem "th".data []
            (NL [Node.text "Close Out Package Review".data])]),
         Node.elem "tr".data [] (NL [
            Node.elem "td".data [] (NL [Node.text "GC Name:".data]),
            Node.elem "td".data [] (NL [Node.text "Acme".data])]),
         Node.elem "tr".data [] (NL [
            Node.elem "td".data [] (NL [Node.text "GC Name:".data]),
            Node.elem "td".data [] (NL [Node.text "Other".data])])])]

/-- A body with a section-header row (`Additional Notes:`) ahead of a
normal field row. -/
def c4Body : NodeList :=
  NL [Node.elem "table".data []
    (NL [Node.elem "tr".data [] (NL [Node.elem "th".data []
            (NL [Node.text "Close Out Package Review".data])]),
         Node.elem "tr".data [] (NL [
            Node.elem "td".data [] (NL [Node.text "Additional Notes:".data]),
            Node.elem "td".data [] (NL [Node.text "hello".data])]),
         Node.elem "tr".data [] (NL [
            Node.elem "td".data [] (NL [Node.text "Site ID:".data]),
            Node.elem "td".data [] (NL [Node.text "ABC123".data])])])]

/-- A hidden tracking span: `<span style="font-size:0">deadbeef</span>`. -/
def hiddenSpanEx : Node :=
  Node.elem "span".data [( "style".data, "font-size:0".data)]
    (NL [Node.text "deadbeef".data])

/-- A body whose first anchor href contains both target domains and
whose second anchor href contains only `swiftprojects.io`. -/
def c8Body : NodeList :=
  NL [Node.elem "table".data []
    (NL [Node.elem "tr".data [] (NL [Node.elem "th".data []
            (NL [Node.text "Close Out Package Review".data])]),
         Node.elem "tr".data [] (NL [
            Node.elem "td".data [] (NL [Node.text "Site ID:".data]),
            Node.elem "td".data [] (NL [Node.text "ABC123".data])]),
         Node.elem "tr".data [] (NL [
            Node.elem "td".data [] (NL [
              Node.elem "a".data [( "href".data, "http://dropbox.com/a/swiftprojects.io".data)]
                (NL [Node.text "L1".data]),
              Node.elem "a".data [( "href".data, "http://swiftprojects.io/b".data)]
                (NL [Node.text "L2".data])])])])]

/-- Scenario 6 body: one row with a dropbox anchor and a swiftprojects
anchor, a later row with a second dropbox anchor. -/
def c8GoodBody : NodeList :=
  NL [Node.elem "table".data []
    (NL [Node.elem "tr".data [] (NL [Node.elem "th".data []
            (NL [Node.text "Close Out Package Review".data])]),
         Node.elem "tr".data [] (NL [
            Node.elem "td".data [] (NL [Node.text "Site ID:".data]),
            Node.elem "td".data [] (NL [Node.text "ABC123".data])]),
         Node.elem "tr".data [] (NL [
            Node.elem "td".data [] (NL [
              Node.elem "a".data [( "href".data, "http://dropbox.com/x".data)]
                (NL [Node.text "L1".data]),
              Node.elem "a".data [( "href".data, "http://swiftprojects.io/y".data)]
                (NL [Node.text "L2".data])])]),
         Node.elem "tr".data [] (NL [
            Node.elem "td".data [] (NL [
              Node.elem "a".data [( "href".data, "http://dropbox.com/z".data)]
                (NL [Node.text "L3".data])])])])]

/-- A body whose value cell contains a nested table; the nested text is
part of the extracted value. -/
def c10Body : NodeList :=
  NL [Node.elem "table".data []
    (NL [Node.elem "tr".data [] (NL [Node.elem "th".data []
            (NL [Node.text "Close Out Package Review".data])]),
         Node.elem "tr".data [] (NL [
            Node.elem "td".data [] (NL [Node.text "Notes:".data]),
            Node.elem "td".data [] (NL [
              Node.text "Outer ".data,
              Node.elem "table".data [] (NL [Node.elem "tr".data []
                (NL [Node.elem "td".data [] (NL [Node.text "Inner".data])])])])])])]

/-- A header cell used by bodies without an enclosing table. -/
def hdrTh : Node :=
  Node.elem "th".data [] (NL [ Node.text "Close Out Package Review".data])

/-- A header row around `hdrTh`. -/
def hdrTr : Node := Node.elem "tr".data [] (NL [ hdrTh])

/-- A table holding only the header row. -/
def hdrTable : Node := Node.elem "table".data [] (NL [ hdrTr])

/-- A body whose header cell has no `table` ancestor. -/
def noTableBody : NodeList := NL [ hdrTh]

/-- A body whose resolved table yields zero label:value pairs. -/
def headerOnlyBody : NodeList := NL [ hdrTable]

/-- One hidden span inserted somewhere in a document: `InsertHidden t t'`
holds when `t'` is `t` with a single span satisfying `isHiddenNode`
(together with its whole subtree) inserted at some position of the
tree. -/
inductive InsertHidden : NodeList → NodeList → Prop
  | head (sp : Node) (hsp : isHiddenNode sp = true) (ns : NodeList) :
      InsertHidden ns (NodeList.cons sp ns)
  | skip (n : Node) (ns ns' : NodeList) (h : InsertHidden ns ns') :
      InsertHidden (NodeList.cons n ns) (NodeList.cons n ns')
  | inside (tag : List Char) (attrs : List (List Char × List Char))
      (ch ch' ns : NodeList) (h : InsertHidden ch ch') :
      InsertHidden (NodeList.cons (Node.elem tag attrs ch) ns)
        (NodeList.cons (Node.elem tag attrs ch') ns)

/- ── Helper lemmas ──────────────────────────────────────────────────── -/

theorem containsSub_iff (n h : List Char) : containsSub n h = true ↔ n <:+: h := by
  unfold containsSub
  rw [List.any_eq_true]
  constructor
  · rintro ⟨t, ht, hp⟩
    rw [List.mem_tails] at ht
    rw [ List.isPrefixOf_iff_prefix] at hp
    exact List.infix_iff_prefix_suffix.mpr ⟨t, hp, ht⟩
  · intro hinf
    rcases List.infix_iff_prefix_suffix.mp hinf with ⟨t, hp, hs⟩
    exact ⟨t, (List.mem_tails _ _).mpr hs, List.isPrefixOf_iff_prefix.mpr hp⟩

theorem containsSub_mono {a b s : List Char} (hab : a <:+: b)
    (h : containsSub b s = true) : containsSub a s = true := by
  rw [containsSub_iff] at h ⊢
  exact hab.trans h

theorem dropWhile_idem (p : Char → Bool) (l : List Char) :
    (l.dropWhile p).dropWhile p = l.dropWhile p := by
  induction l with
  | nil => rfl
  | cons a l ih =>
      rw [List.dropWhile_cons]
      by_cases h : p a = true
      · rw [if_pos h]; exact ih
      · rw [if_neg h, List.dropWhile_cons, if_neg h]

theorem lstripChars_idem (s : List Char) : lstripChars (lstripChars s) = lstripChars s :=
  dropWhile_idem pySpace s

theorem rstripChars_idem (s : List Char) : rstripChars (rstripChars s) = rstripChars s := by
  unfold rstripChars
  rw [List.reverse_reverse, dropWhile_idem]

theorem rstripChars_isPre (s : List Char) : rstripChars s <+: s := by
  unfold rstripChars
  have h1 : (s.reverse.dropWhile pySpace) <:+ s.reverse := List.dropWhile_suffix pySpace
  have h2 : ((s.reverse.dropWhile pySpace).reverse).reverse <:+ s.reverse := by
    rwa [List.reverse_reverse]
  exact List.reverse_suffix.mp h2

theorem lstripChars_rstripChars (s : List Char) (hs : lstripChars s = s) :
    lstripChars (rstripChars s) = rstripChars s := by
  rcases hr : rstripChars s with _ | ⟨a, u⟩
  · rfl
  · rcases rstripChars_isPre s with ⟨tail, htail⟩
    rw [hr] at htail
    have hsa : s = a :: (u ++ tail) := by rw [← htail]; rfl
    cases hpa : pySpace a with
    | false =>
        unfold lstripChars
        rw [List.dropWhile_cons, if_neg (by simp [hpa])]
    | true =>
        exfalso
        have hdw := hs
        rw [hsa] at hdw
        unfold lstripChars at hdw
        rw [List.dropWhile_cons, if_pos hpa] at hdw
        have hlen := congrArg List.length hdw
        have hle : ((u ++ tail).dropWhile pySpace).length ≤ (u ++ tail).length :=
          (List.dropWhile_suffix pySpace).sublist.length_le
        simp only [List.length_cons] at hlen
        omega

theorem stripChars_idem (s : List Char) : stripChars (stripChars s) = stripChars s := by
  unfold stripChars
  rw [lstripChars_rstripChars (lstripChars s) (lstripChars_idem s), rstripChars_idem]

/- ── The cell scan as a fold over the pair stream ───────────────────── -/

theorem processCells_eq_foldl (cells : List Node) (fields : List (List Char × List Char)) :
    processCells cells fields =
      (cellPairs cells).foldl (fun fs p => insertIfAbsent fs p.1 p.2) fields := by
  induction cells, fields using processCells.induct with
  | case1 fields => simp [processCells, cellPairs]
  | case2 cell fields => simp [processCells, cellPairs]
  | case3 cell fields n ns h1 h2 ih => simp [processCells, cellPairs, h1, h2, ih]
  | case4 cell fields n ns h1 h2 ih => simp [processCells, cellPairs, h1, h2, ih]
  | case5 cell fields n ns h1 ih => simp [processCells, cellPairs, h1, ih]

theorem mem_insertIfAbsent {fs : List (List Char × List Char)} {l v : List Char}
    {p : List Char × List Char} (h : p ∈ insertIfAbsent fs l v) :
    p ∈ fs ∨ p = (l, v) := by
  unfold insertIfAbsent at h
  by_cases hany : fs.any (fun q => q.1 == l) = true
  · rw [if_pos hany] at h; exact Or.inl h
  · rw [if_neg hany] at h
    rcases List.mem_append.mp h with h' | h'
    · exact Or.inl h'
    · exact Or.inr (by simpa using h')

theorem mem_insFold (ps : List (List Char × List Char)) :
    ∀ (fields : List (List Char × List Char)) (p : List Char × List Char),
      p ∈ ps.foldl (fun fs q => insertIfAbsent fs q.1 q.2) fields →
      p ∈ fields ∨ p ∈ ps := by
  induction ps with
  | nil => intro fields p h; exact Or.inl h
  | cons q ps ih =>
      intro fields p h
      rcases ih (insertIfAbsent fields q.1 q.2) p h with h' | h'
      · rcases mem_insertIfAbsent h' with h'' | h''
        · exact Or.inl h''
        · exact Or.inr (by simp [h''])
      · exact Or.inr (List.mem_cons_of_mem _ h')

theorem lookupField_none_iff (fs : List (List Char × List Char)) (l : List Char) :
    lookupField fs l = none ↔ fs.any (fun q => q.1 == l) = false := by
  unfold lookupField
  rw [Option.map_eq_none', List.find?_eq_none, List.any_eq_false]

theorem lookupField_cons (q : List Char × List Char) (ps : List (List Char × List Char))
    (l : List Char) :
    lookupField (q :: ps) l = if q.1 = l then some q.2 else lookupField ps l := by
  unfold lookupField
  by_cases h : q.1 = l
  · rw [if_pos h, List.find?_cons_of_pos _ (by simpa using h)]
    rfl
  · rw [if_neg h, List.find?_cons_of_neg _ (by simpa using h)]

theorem lookupField_append_single (fs : List (List Char × List Char)) (l v l' : List Char) :
    lookupField (fs ++ [(l, v)]) l' =
      match lookupField fs l' with
      | some w => some w
      | none => if l = l' then some v else none := by
  induction fs with
  | nil =>
      rw [List.nil_append, lookupField_cons]
      by_cases he : l = l'
      · rw [if_pos he, if_pos he]
        rfl
      · rw [if_neg he, if_neg he]
        rfl
  | cons q fs ih =>
      rw [List.cons_append, lookupField_cons, lookupField_cons, ih]
      by_cases he : q.1 = l'
      · rw [if_pos he, if_pos he]
      · rw [if_neg he, if_neg he]

theorem lookupField_insertIfAbsent (fs : List (List Char × List Char)) (l v l' : List Char) :
    lookupField (insertIfAbsent fs l v) l' =
      match lookupField fs l' with
      | some w => some w
      | none => if l = l' ∧ lookupField fs l = none then some v else none := by
  unfold insertIfAbsent
  by_cases hany : fs.any (fun q => q.1 == l) = true
  · rw [if_pos hany]
    have hl : ¬ lookupField fs l = none := by
      intro hcon
      rw [lookupField_none_iff] at hcon
      rw [hcon] at hany
      exact Bool.false_ne_true hany
    cases h' : lookupField fs l' with
    | some w => rfl
    | none => rw [if_neg (fun hcon => hl hcon.2)]
  · rw [if_neg hany]
    have hl : lookupField fs l = none := by
      rw [lookupField_none_iff]
      exact Bool.eq_false_iff.mpr hany
    rw [lookupField_append_single]
    cases h' : lookupField fs l' with
    | some w => rfl
    | none =>
        by_cases he : l = l'
        · rw [if_pos he, if_pos ⟨he, hl⟩]
        · rw [if_neg he, if_neg (fun hcon => he hcon.1)]

theorem lookupField_insFold (ps : List (List Char × List Char)) :
    ∀ (fields : List (List Char × List Char)) (l : List Char),
      lookupField (ps.foldl (fun fs q => insertIfAbsent fs q.1 q.2) fields) l =
        match lookupField fields l with
        | some w => some w
        | none => lookupField ps l := by
  induction ps with
  | nil =>
      intro fields l
      rw [List.foldl_nil]
      cases h : lookupField fields l <;> rfl
  | cons q ps ih =>
      intro fields l
      rw [List.foldl_cons, ih (insertIfAbsent fields q.1 q.2) l, lookupField_insertIfAbsent]
      cases h' : lookupField fields l with
      | some w => rfl
      | none =>
          rw [lookupField_cons]
          by_cases he : q.1 = l
          · by_cases hq : lookupField fields q.1 = none
            · rw [if_pos ⟨he, hq⟩, if_pos he]
            · exact absurd (by rw [he]; exact h') hq
          · rw [if_neg (fun hcon => he hcon.1), if_neg he]

/- ── Decomposition of the row fold ──────────────────────────────────── -/

theorem foldl_processRow_fields (rows : List Node) :
    ∀ st : RowState,
      (rows.foldl processRow st).fields =
        (rows.flatMap (fun row => cellPairs (directCells row))).foldl
          (fun fs q => insertIfAbsent fs q.1 q.2) st.fields := by
  induction rows with
  | nil => intro st; simp
  | cons row rows ih =>
      intro st
      rw [List.foldl_cons, List.flatMap_cons, List.foldl_append, ih (processRow st row)]
      congr 1
      rw [show (processRow st row).fields = processCells (directCells row) st.fields from rfl]
      exact processCells_eq_foldl _ _

theorem foldl_processRow_links (rows : List Node) :
    ∀ st : RowState,
      ((rows.foldl processRow st).dropbox_url, (rows.foldl processRow st).swift_url) =
        (rows.flatMap rowHrefs).foldl linkStep (st.dropbox_url, st.swift_url) := by
  induction rows with
  | nil => intro st; simp
  | cons row rows ih =>
      intro st
      rw [List.foldl_cons, List.flatMap_cons, List.foldl_append, ih (processRow st row)]
      rfl

theorem foldl_processRow_dropbox (rows : List Node) (st : RowState) :
    (rows.foldl processRow st).dropbox_url =
      ((rows.flatMap rowHrefs).foldl linkStep (st.dropbox_url, st.swift_url)).1 :=
  congrArg Prod.fst (foldl_processRow_links rows st)

theorem foldl_processRow_swift (rows : List Node) (st : RowState) :
    (rows.foldl processRow st).swift_url =
      ((rows.flatMap rowHrefs).foldl linkStep (st.dropbox_url, st.swift_url)).2 :=
  congrArg Prod.snd (foldl_processRow_links rows st)

/- ── Behaviour of the link fold ─────────────────────────────────────── -/

theorem linkStep_fst_some (x : List Char) (s : Option (List Char)) (h : List Char) :
    (linkStep (some x, s) h).1 = some x := by
  unfold linkStep
  by_cases hc : containsSub "swiftprojects.io".data h = true ∧ s = none
  · simp [hc]
  · simp [hc]

theorem linkStep_snd_some (d : Option (List Char)) (x : List Char) (h : List Char) :
    (linkStep (d, some x) h).2 = some x := by
  unfold linkStep
  by_cases hc : containsSub "dropbox.com".data h = true ∧ d = none
  · simp [hc]
  · simp [hc]

theorem linkFold_fst_some (hrefs : List (List Char)) :
    ∀ (p : Option (List Char) × Option (List Char)) (x : List Char), p.1 = some x →
      (hrefs.foldl linkStep p).1 = some x := by
  induction hrefs with
  | nil => intro p x hp; exact hp
  | cons h hs ih =>
      intro p x hp
      rw [List.foldl_cons]
      apply ih
      obtain ⟨p1, p2⟩ := p
      simp only at hp
      rw [hp]
      exact linkStep_fst_some x p2 h

theorem linkFold_snd_some (hrefs : List (List Char)) :
    ∀ (p : Option (List Char) × Option (List Char)) (x : List Char), p.2 = some x →
      (hrefs.foldl linkStep p).2 = some x := by
  induction hrefs with
  | nil => intro p x hp; exact hp
  | cons h hs ih =>
      intro p x hp
      rw [List.foldl_cons]
      apply ih
      obtain ⟨p1, p2⟩ := p
      simp only at hp
      rw [hp]
      exact linkStep_snd_some p1 x h

theorem linkFold_fst_none (hrefs : List (List Char)) :
    ∀ s : Option (List Char),
      (hrefs.foldl linkStep (none, s)).1 =
        hrefs.find? (fun h => containsSub "dropbox.com".data h) := by
  induction hrefs with
  | nil => intro s; rfl
  | cons h hs ih =>
      intro s
      rw [List.foldl_cons]
      by_cases hd : containsSub "dropbox.com".data h = true
      · rw [List.find?_cons_of_pos _ hd]
        have hstep : linkStep (none, s) h = (some h, s) := by
          unfold linkStep; simp [hd]
        rw [hstep]
        exact linkFold_fst_some hs (some h, s) h rfl
      · rw [List.find?_cons_of_neg _ (by simpa using hd)]
        have hfst : (linkStep (none, s) h).1 = none := by
          unfold linkStep
          by_cases hsw : containsSub "swiftprojects.io".data h = true ∧ s = none
          · simp [hd, hsw]
          · simp [hd, hsw]
        have hstep : linkStep (none, s) h = (none, (linkStep (none, s) h).2) := by
          rw [Prod.ext_iff]
          exact ⟨hfst, rfl⟩
        rw [hstep]
        exact ih _

theorem linkFold_snd_none (hrefs : List (List Char)) :
    ∀ d : Option (List Char),
      (∀ h ∈ hrefs, ¬(containsSub "dropbox.com".data h = true ∧
        containsSub "swiftprojects.io".data h = true)) →
      (hrefs.foldl linkStep (d, none)).2 =
        hrefs.find? (fun h => containsSub "swiftprojects.io".data h) := by
  induction hrefs with
  | nil => intro d _; rfl
  | cons h hs ih =>
      intro d hnd
      have hnd' : ∀ x ∈ hs, ¬(containsSub "dropbox.com".data x = true ∧
          containsSub "swiftprojects.io".data x = true) :=
        fun x hx => hnd x (List.mem_cons_of_mem _ hx)
      have hndh := hnd h (List.mem_cons_self _ _)
      rw [List.foldl_cons]
      by_cases hsw : containsSub "swiftprojects.io".data h = true
      · rw [List.find?_cons_of_pos _ hsw]
        have hd : ¬ containsSub "dropbox.com".data h = true := fun hdt => hndh ⟨hdt, hsw⟩
        have hstep : linkStep (d, none) h = (d, some h) := by
          unfold linkStep; simp [hd, hsw]
        rw [hstep]
        exact linkFold_snd_some hs (d, some h) h rfl
      · rw [List.find?_cons_of_neg _ (by simpa using hsw)]
        have hsnd : (linkStep (d, none) h).2 = none := by
          unfold linkStep
          by_cases hd : containsSub "dropbox.com".data h = true ∧ d = none
          · simp [hd]
          · simp [hd, hsw]
        have hstep : linkStep (d, none) h = ((linkStep (d, none) h).1, none) := by
          rw [Prod.ext_iff]
          exact ⟨rfl, hsnd⟩
        rw [hstep]
        exact ih _ hnd'

/- ── Invariants of the pair stream ──────────────────────────────────── -/

theorem cellPairs_label_inv (cells : List Node) :
    ∀ p ∈ cellPairs cells, p.1 ≠ [] ∧ stripChars p.1 = p.1 ∧
      upperChars p.1 ∉ _SECTION_HEADERS := by
  induction cells using cellPairs.induct with
  | case1 => intro p hp; simp [cellPairs] at hp
  | case2 cell => intro p hp; simp [cellPairs] at hp
  | case3 cell n ns h1 h2 ih =>
      intro p hp
      simp only [cellPairs, h1, h2, if_true, ite_true, true_or, or_true] at hp
      exact ih p hp
  | case4 cell n ns h1 h2 ih =>
      intro p hp
      rw [cellPairs, if_pos h1, if_neg h2] at hp
      push_neg at h2
      rcases List.mem_cons.mp hp with hp' | hp'
      · refine ⟨by rw [hp']; exact h2.1, ?_, by rw [hp']; exact h2.2⟩
        rw [hp']
        show stripChars (labelOfText (_clean_text (get_text cell))) = _
        unfold labelOfText
        exact stripChars_idem _
      · exact ih p hp'
  | case5 cell n ns h1 ih =>
      intro p hp
      rw [cellPairs, if_neg h1] at hp
      exact ih p hp

theorem cellPairs_pos (cells : List Node) :
    ∀ p ∈ cellPairs cells, ∃ i, ∃ h1 : i < cells.length, ∃ h2 : i + 1 < cells.length,
      (nodeTag (cells.get ⟨i, h1⟩) = "th".data ∨
        endsWithColon (_clean_text (get_text (cells.get ⟨i, h1⟩))) = true) ∧
      p.1 = labelOfText (_clean_text (get_text (cells.get ⟨i, h1⟩))) ∧
      p.2 = _clean_text (get_text (cells.get ⟨i + 1, h2⟩)) := by
  induction cells using cellPairs.induct with
  | case1 => intro p hp; simp [cellPairs] at hp
  | case2 cell => intro p hp; simp [cellPairs] at hp
  | case3 cell n ns h1 h2 ih =>
      intro p hp
      simp only [cellPairs, h1, h2, if_true, ite_true, true_or, or_true] at hp
      rcases ih p hp with ⟨i, hi1, hi2, hprop⟩
      simp only [List.length_cons] at hi1 hi2
      refine ⟨i + 1, by simp only [List.length_cons]; omega,
        by simp only [List.length_cons]; omega, ?_⟩
      exact hprop
  | case4 cell n ns h1 h2 ih =>
      intro p hp
      rw [cellPairs, if_pos h1, if_neg h2] at hp
      rcases List.mem_cons.mp hp with hp' | hp'
      · refine ⟨0, by simp, by simp only [List.length_cons]; omega, h1, ?_, ?_⟩
        · rw [hp']
          rfl
        · rw [hp']
          rfl
      · rcases ih p hp' with ⟨i, hi1, hi2, hprop⟩
        refine ⟨i + 2, by simp only [List.length_cons]; omega,
          by simp only [List.length_cons]; omega, ?_⟩
        exact hprop
  | case5 cell n ns h1 ih =>
      intro p hp
      rw [cellPairs, if_neg h1] at hp
      rcases ih p hp with ⟨i, hi1, hi2, hprop⟩
      simp only [List.length_cons] at hi1 hi2
      refine ⟨i + 1, by simp only [List.length_cons]; omega,
        by simp only [List.length_cons]; omega, ?_⟩
      exact hprop

/- ── Hidden-span removal is insensitive to hidden-span insertion ────── -/

theorem removeHidden_insert {t t' : NodeList} (h : InsertHidden t t') :
    removeHiddenList t' = removeHiddenList t := by
  induction h with
  | head sp hsp ns =>
      rw [removeHiddenList, if_pos hsp]
  | skip n ns ns' h ih =>
      by_cases hn : isHiddenNode n = true
      · rw [removeHiddenList, if_pos hn, removeHiddenList, if_pos hn, ih]
      · rw [removeHiddenList, if_neg hn, removeHiddenList, if_neg hn, ih]
  | inside tag attrs ch ch' ns h ih =>
      have hsame : isHiddenNode (Node.elem tag attrs ch') = isHiddenNode (Node.elem tag attrs ch) :=
        rfl
      by_cases hn : isHiddenNode (Node.elem tag attrs ch) = true
      · rw [removeHiddenList, hsame, if_pos hn, removeHiddenList, if_pos hn]
      · rw [removeHiddenList, hsame, if_neg hn, removeHiddenList, if_neg hn,
          removeHiddenNode, removeHiddenNode, ih]

/-- Branch analysis of `parse_package_email`: every call lands in
exactly one of the five composer branches of the source. -/
theorem parse_cases (body : NodeList) :
    (body = NodeList.nil ∧ parse_package_email body =
      { package_type := none, fields := none, dropbox_url := none,
        swift_url := none, parse_error := some "empty body".data }) ∨
    (body ≠ NodeList.nil ∧ findHeaderL [] (removeHiddenList body) = none ∧
      parse_package_email body =
      { package_type := none, fields := none, dropbox_url := none,
        swift_url := none, parse_error := some "no package header found".data }) ∨
    (∃ hc anc, body ≠ NodeList.nil ∧
      findHeaderL [] (removeHiddenList body) = some (hc, anc) ∧
      findTableAnc anc = none ∧
      parse_package_email body =
      { package_type := some (_extract_package_type (_clean_text (headerTextOf hc))),
        fields := none, dropbox_url := none, swift_url := none,
        parse_error := some "could not find package table".data }) ∨
    (∃ hc anc pkg_table, body ≠ NodeList.nil ∧
      findHeaderL [] (removeHiddenList body) = some (hc, anc) ∧
      findTableAnc anc = some pkg_table ∧
      ((tableRows pkg_table).foldl processRow
        { fields := [], dropbox_url := none, swift_url := none }).fields = [] ∧
      parse_package_email body =
      { package_type := some (_extract_package_type (_clean_text (headerTextOf hc))),
        fields := none, dropbox_url := none, swift_url := none,
        parse_error := some "table found but no label:value pairs extracted".data }) ∨
    (∃ hc anc pkg_table, body ≠ NodeList.nil ∧
      findHeaderL [] (removeHiddenList body) = some (hc, anc) ∧
      findTableAnc anc = some pkg_table ∧
      ((tableRows pkg_table).foldl processRow
        { fields := [], dropbox_url := none, swift_url := none }).fields ≠ [] ∧
      parse_package_email body =
      { package_type := some (_extract_package_type (_clean_text (headerTextOf hc))),
        fields := some ((tableRows pkg_table).foldl processRow
          { fields := [], dropbox_url := none, swift_url := none }).fields,
        dropbox_url := some ((tableRows pkg_table).foldl processRow
          { fields := [], dropbox_url := none, swift_url := none }).dropbox_url,
        swift_url := some ((tableRows pkg_table).foldl processRow
          { fields := [], dropbox_url := none, swift_url := none }).swift_url,
        parse_error := none }) := by
  by_cases hb : body = NodeList.nil
  · exact Or.inl ⟨hb, by simp [parse_package_email, hb]⟩
  · rcases h1 : findHeaderL [] (removeHiddenList body) with _ | ⟨hc, anc⟩
    · exact Or.inr (Or.inl ⟨hb, rfl, by simp [parse_package_email, parseSoup, hb, h1]⟩)
    · rcases h2 : findTableAnc anc with _ | pkg_table
      · refine Or.inr (Or.inr (Or.inl ⟨hc, anc, hb, rfl, h2, ?_⟩))
        simp [parse_package_email, parseSoup, hb, h1, h2]
      · by_cases h3 : ((tableRows pkg_table).foldl processRow
            { fields := [], dropbox_url := none, swift_url := none }).fields = []
        · refine Or.inr (Or.inr (Or.inr (Or.inl ⟨hc, anc, pkg_table, hb, rfl, h2, h3, ?_⟩)))
          simp [parse_package_email, parseSoup, hb, h1, h2, h3]
        · refine Or.inr (Or.inr (Or.inr (Or.inr ⟨hc, anc, pkg_table, hb, rfl, h2, h3, ?_⟩)))
          simp [parse_package_email, parseSoup, hb, h1, h2, h3]

/- ── Claim theorems ─────────────────────────────────────────────────── -/

/-- C1: on the Scenario 1 body
`<table><tr><th>Close Out Package Review</th></tr><tr><td>Site ID:</td><td>ABC123</td></tr></table>`,
`parse_package_email` returns `packageType = "REVIEW"`, the one-entry
field map `Site ID ↦ ABC123`, and a null `parseError`. -/
theorem claim_C1 :
    (parse_package_email c1Body).package_type = some "REVIEW".data ∧
    (parse_package_email c1Body).fields = some [( "Site ID".data, "ABC123".data)] ∧
    (parse_package_email c1Body).parse_error = none := by
  decide

/-- C2: `parse_package_email` is total (the Lean model is a total
function) and its error taxonomy is exact, in both directions for every
branch: the empty body yields exactly the record with
`parse_error = "empty body"` and nothing else attempted (and only the
empty body yields it); `"no package header found"` is returned exactly
when the body is non-empty and no cell matches a header pattern, and
then `package_type` is absent; whenever a header cell matched but its
ancestor chain holds no table, the result is exactly the
`"could not find package table"` record with `package_type` set and no
fields; whenever the table resolved but the cell scan extracted zero
fields, the result is exactly the
`"table found but no label:value pairs extracted"` record with
`package_type` set and no fields; whenever every stage succeeds the
result is the success record with null `parse_error` and all keys
populated; and no other error string exists. -/
theorem claim_C2 (body : NodeList) :
    (body = NodeList.nil ↔ parse_package_email body =
      { package_type := none, fields := none, dropbox_url := none,
        swift_url := none, parse_error := some "empty body".data }) ∧
    ((parse_package_email body).parse_error = some "no package header found".data ↔
      (body ≠ NodeList.nil ∧ findHeaderL [] (removeHiddenList body) = none)) ∧
    ((parse_package_email body).parse_error = some "no package header found".data →
      (parse_package_email body).package_type = none ∧
      (parse_package_email body).fields = none) ∧
    ((parse_package_email body).parse_error = some "could not find package table".data →
      (∃ pt, (parse_package_email body).package_type = some pt) ∧
      (parse_package_email body).fields = none) ∧
    ((parse_package_email body).parse_error =
        some "table found but no label:value pairs extracted".data →
      (∃ pt, (parse_package_email body).package_type = some pt) ∧
      (parse_package_email body).fields = none) ∧
    ((parse_package_email body).parse_error = none →
      (∃ f, (parse_package_email body).fields = some f ∧ f ≠ []) ∧
      (∃ pt, (parse_package_email body).package_type = some pt) ∧
      (∃ d, (parse_package_email body).dropbox_url = some d) ∧
      (∃ s, (parse_package_email body).swift_url = some s)) ∧
    ((parse_package_email body).parse_error = none ∨
      (parse_package_email body).parse_error ∈
        [some "empty body".data, some "no package header found".data,
         some "could not find package table".data,
         some "table found but no label:value pairs extracted".data]) ∧
    (∀ hc anc, findHeaderL [] (removeHiddenList body) = some (hc, anc) →
      findTableAnc anc = none →
      parse_package_email body =
        { package_type := some (_extract_package_type (_clean_text (headerTextOf hc))),
          fields := none, dropbox_url := none, swift_url := none,
          parse_error := some "could not find package table".data }) ∧
    (∀ hc anc pkg_table, findHeaderL [] (removeHiddenList body) = some (hc, anc) →
      findTableAnc anc = some pkg_table →
      ((tableRows pkg_table).foldl processRow
        { fields := [], dropbox_url := none, swift_url := none }).fields = [] →
      parse_package_email body =
        { package_type := some (_extract_package_type (_clean_text (headerTextOf hc))),
          fields := none, dropbox_url := none, swift_url := none,
          parse_error := some "table found but no label:value pairs extracted".data }) ∧
    (∀ hc anc pkg_table, findHeaderL [] (removeHiddenList body) = some (hc, anc) →
      findTableAnc anc = some pkg_table →
      ((tableRows pkg_table).foldl processRow
        { fields := [], dropbox_url := none, swift_url := none }).fields ≠ [] →
      parse_package_email body =
        { package_type := some (_extract_package_type (_clean_text (headerTextOf hc))),
          fields := some ((tableRows pkg_table).foldl processRow
            { fields := [], dropbox_url := none, swift_url := none }).fields,
          dropbox_url := some ((tableRows pkg_table).foldl processRow
            { fields := [], dropbox_url := none, swift_url := none }).dropbox_url,
          swift_url := some ((tableRows pkg_table).foldl processRow
            { fields := [], dropbox_url := none, swift_url := none }).swift_url,
          parse_error := none }) := by
  have hbody : ∀ hc anc, findHeaderL [] (removeHiddenList body) = some (hc, anc) →
      body ≠ NodeList.nil := by
    intro hc anc h1 hnil
    rw [hnil] at h1
    simp [removeHiddenList, findHeaderL] at h1
  have fwd_table : ∀ hc anc, findHeaderL [] (removeHiddenList body) = some (hc, anc) →
      findTableAnc anc = none →
      parse_package_email body =
        { package_type := some (_extract_package_type (_clean_text (headerTextOf hc))),
          fields := none, dropbox_url := none, swift_url := none,
          parse_error := some "could not find package table".data } := by
    intro hc anc h1 h2
    simp [parse_package_email, parseSoup, hbody hc anc h1, h1, h2]
  have fwd_nofields : ∀ hc anc pkg_table,
      findHeaderL [] (removeHiddenList body) = some (hc, anc) →
      findTableAnc anc = some pkg_table →
      ((tableRows pkg_table).foldl processRow
        { fields := [], dropbox_url := none, swift_url := none }).fields = [] →
      parse_package_email body =
        { package_type := some (_extract_package_type (_clean_text (headerTextOf hc))),
          fields := none, dropbox_url := none, swift_url := none,
          parse_error := some "table found but no label:value pairs extracted".data } := by
    intro hc anc pkg_table h1 h2 h3
    simp [parse_package_email, parseSoup, hbody hc anc h1, h1, h2, h3]
  have fwd_success : ∀ hc anc pkg_table,
      findHeaderL [] (removeHiddenList body) = some (hc, anc) →
      findTableAnc anc = some pkg_table →
      ((tableRows pkg_table).foldl processRow
        { fields := [], dropbox_url := none, swift_url := none }).fields ≠ [] →
      parse_package_email body =
        { package_type := some (_extract_package_type (_clean_text (headerTextOf hc))),
          fields := some ((tableRows pkg_table).foldl processRow
            { fields := [], dropbox_url := none, swift_url := none }).fields,
          dropbox_url := some ((tableRows pkg_table).foldl processRow
            { fields := [], dropbox_url := none, swift_url := none }).dropbox_url,
          swift_url := some ((tableRows pkg_table).foldl processRow
            { fields := [], dropbox_url := none, swift_url := none }).swift_url,
          parse_error := none } := by
    intro hc anc pkg_table h1 h2 h3
    simp [parse_package_email, parseSoup, hbody hc anc h1, h1, h2, h3]
  have old :
        (body = NodeList.nil ↔ parse_package_email body =
          { package_type := none, fields := none, dropbox_url := none,
            swift_url := none, parse_error := some "empty body".data }) ∧
        ((parse_package_email body).parse_error = some "no package header found".data ↔
          (body ≠ NodeList.nil ∧ findHeaderL [] (removeHiddenList body) = none)) ∧
        ((parse_package_email body).parse_error = some "no package header found".data →
          (parse_package_email body).package_type = none ∧
          (parse_package_email body).fields = none) ∧
        ((parse_package_email body).parse_error = some "could not find package table".data →
          (∃ pt, (parse_package_email body).package_type = some pt) ∧
          (parse_package_email body).fields = none) ∧
        ((parse_package_email body).parse_error =
            some "table found but no label:value pairs extracted".data →
          (∃ pt, (parse_package_email body).package_type = some pt) ∧
          (parse_package_email body).fields = none) ∧
        ((parse_package_email body).parse_error = none →
          (∃ f, (parse_package_email body).fields = some f ∧ f ≠ []) ∧
          (∃ pt, (parse_package_email body).package_type = some pt) ∧
          (∃ d, (parse_package_email body).dropbox_url = some d) ∧
          (∃ s, (parse_package_email body).swift_url = some s)) ∧
        ((parse_package_email body).parse_error = none ∨
          (parse_package_email body).parse_error ∈
            [some "empty body".data, some "no package header found".data,
             some "could not find package table".data,
             some "table found but no label:value pairs extracted".data]) := by
      rcases parse_cases body with ⟨hb, hr⟩ | ⟨hb, h1, hr⟩ | ⟨hc, anc, hb, h1, h2, hr⟩
        | ⟨hc, anc, t, hb, h1, h2, h3, hr⟩ | ⟨hc, anc, t, hb, h1, h2, h3, hr⟩ <;> rw [hr]
      · refine ⟨by simp [hb], iff_of_false (by decide) (by simp [hb]), ?_, ?_, ?_, ?_, ?_⟩
        · intro h; exact absurd h (by decide)
        · intro h; exact absurd h (by decide)
        · intro h; exact absurd h (by decide)
        · intro h; exact absurd h (by decide)
        · right; decide
      · refine ⟨iff_of_false hb (by decide), iff_of_true rfl ⟨hb, h1⟩, ?_, ?_, ?_, ?_, ?_⟩
        · intro _; exact ⟨rfl, rfl⟩
        · intro h; exact absurd h (by decide)
        · intro h; exact absurd h (by decide)
        · intro h; exact absurd h (by decide)
        · right; decide
      · refine ⟨iff_of_false hb (fun h => by simp at h),
          iff_of_false (fun h => absurd (Option.some.inj h) (by decide)) (by simp [h1]),
          ?_, ?_, ?_, ?_, ?_⟩
        · intro h; exact absurd (Option.some.inj h) (by decide)
        · intro _; exact ⟨⟨_, rfl⟩, rfl⟩
        · intro h; exact absurd (Option.some.inj h) (by decide)
        · intro h; exact (Option.some_ne_none _ h).elim
        · right
          exact List.mem_cons_of_mem _ (List.mem_cons_of_mem _ (List.mem_cons_self _ _))
      · refine ⟨iff_of_false hb (fun h => by simp at h),
          iff_of_false (fun h => absurd (Option.some.inj h) (by decide)) (by simp [h1]),
          ?_, ?_, ?_, ?_, ?_⟩
        · intro h; exact absurd (Option.some.inj h) (by decide)
        · intro h; exact absurd (Option.some.inj h) (by decide)
        · intro _; exact ⟨⟨_, rfl⟩, rfl⟩
        · intro h; exact (Option.some_ne_none _ h).elim
        · right
          exact List.mem_cons_of_mem _ (List.mem_cons_of_mem _
            (List.mem_cons_of_mem _ (List.mem_cons_self _ _)))
      · refine ⟨iff_of_false hb ?_, iff_of_false ?_ (by simp [h1]), ?_, ?_, ?_, ?_, ?_⟩
        · simp
        · simp
        · intro h; simp at h
        · intro h; simp at h
        · intro h; simp at h
        · intro _; exact ⟨⟨_, rfl, h3⟩, ⟨_, rfl⟩, ⟨_, rfl⟩, ⟨_, rfl⟩⟩
        · left; rfl
  exact ⟨old.1, old.2.1, old.2.2.1, old.2.2.2.1, old.2.2.2.2.1, old.2.2.2.2.2.1,
    old.2.2.2.2.2.2, fwd_table, fwd_nofields, fwd_success⟩

/-- C2 witness: the empty body yields exactly the `empty body` error
record; a header cell with no table ancestor yields exactly the
`could not find package table` record; a resolved table with zero
extracted fields yields exactly the
`table found but no label:value pairs extracted` record. -/
theorem claim_C2_witness :
    parse_package_email NodeList.nil =
      { package_type := none, fields := none, dropbox_url := none,
        swift_url := none, parse_error := some "empty body".data } ∧
    parse_package_email noTableBody =
      { package_type := some "REVIEW".data, fields := none, dropbox_url := none,
        swift_url := none, parse_error := some "could not find package table".data } ∧
    parse_package_email headerOnlyBody =
      { package_type := some "REVIEW".data, fields := none, dropbox_url := none,
        swift_url := none,
        parse_error := some "table found but no label:value pairs extracted".data } :=
  ⟨(claim_C2 NodeList.nil).1.mp rfl,
   (claim_C2 noTableBody).2.2.2.2.2.2.2.1 hdrTh [] (by decide) (by decide),
   (claim_C2 headerOnlyBody).2.2.2.2.2.2.2.2.1 hdrTh [ hdrTr, hdrTable] hdrTable
     (by decide) (by decide) (by decide)⟩

/-- C5: the classifier prefers a compound phrase over a generic phrase
contained in it as a substring: header text containing
`POST MODIFICATION INSPECTION CLOSE OUT PACKAGE` classifies as `PMI`,
header text containing `LANDLORD CLOSE OUT PACKAGE` (and not the
inspection qualifier) classifies as `LL COP`, and header text containing
`48 HOUR PACKAGE REVIEW` (and neither of the former qualifiers)
classifies as `48HR REVIEW` — never the generic types of the contained
phrases. -/
theorem claim_C5 (header : List Char) :
    (containsSub "POST MODIFICATION INSPECTION CLOSE OUT PACKAGE".data
        (upperChars header) = true →
      _extract_package_type header = "PMI".data) ∧
    (containsSub "LANDLORD CLOSE OUT PACKAGE".data (upperChars header) = true →
      containsSub "POST MODIFICATION INSPECTION".data (upperChars header) = false →
      _extract_package_type header = "LL COP".data) ∧
    (containsSub "48 HOUR PACKAGE REVIEW".data (upperChars header) = true →
      containsSub "POST MODIFICATION INSPECTION".data (upperChars header) = false →
      containsSub "LANDLORD".data (upperChars header) = false →
      _extract_package_type header = "48HR REVIEW".data) := by
  refine ⟨?_, ?_, ?_⟩
  · intro h
    have h1 : containsSub "POST MODIFICATION INSPECTION".data (upperChars header) = true :=
      containsSub_mono (by decide) h
    simp [_extract_package_type, h1]
  · intro h hpmi
    have h1 : containsSub "LANDLORD".data (upperChars header) = true :=
      containsSub_mono (by decide) h
    have h2 : containsSub "CLOSE OUT PACKAGE".data (upperChars header) = true :=
      containsSub_mono (by decide) h
    simp [_extract_package_type, hpmi, h1, h2]
  · intro h hpmi hll
    have h1 : containsSub "48 HOUR".data (upperChars header) = true :=
      containsSub_mono (by decide) h
    have h2 : containsSub "REVIEW".data (upperChars header) = true :=
      containsSub_mono (by decide) h
    simp [_extract_package_type, hpmi, hll, h1, h2]

/-- C5 witness: `Landlord Close Out Package` classifies as `LL COP`. -/
theorem claim_C5_witness :
    _extract_package_type "Landlord Close Out Package".data = "LL COP".data :=
  (claim_C5 "Landlord Close Out Package".data).2.1 (by decide) (by decide)

/-- C7: exactly one of (fields populated and `parse_error` null) or
(`parse_error` set and fields absent or empty) holds for every input
body. -/
theorem claim_C7 (body : NodeList) :
    Xor'
      ((∃ f, (parse_package_email body).fields = some f ∧ f ≠ []) ∧
        (parse_package_email body).parse_error = none)
      ((∃ e, (parse_package_email body).parse_error = some e) ∧
        ((parse_package_email body).fields = none ∨
          (parse_package_email body).fields = some [])) := by
  rcases parse_cases body with ⟨hb, hr⟩ | ⟨hb, h1, hr⟩ | ⟨hc, anc, hb, h1, h2, hr⟩
    | ⟨hc, anc, t, hb, h1, h2, h3, hr⟩ | ⟨hc, anc, t, hb, h1, h2, h3, hr⟩ <;> rw [hr]
  · simp [Xor']
  · simp [Xor']
  · simp [Xor']
  · simp [Xor']
  · simp [Xor', h3]

/-- C9: whenever `parse_package_email` returns a non-null `parse_error`,
the result carries no `dropbox_url` and no `swift_url` key. -/
theorem claim_C9 (body : NodeList)
    (h : (parse_package_email body).parse_error ≠ none) :
    (parse_package_email body).dropbox_url = none ∧
    (parse_package_email body).swift_url = none := by
  rcases parse_cases body with ⟨hb, hr⟩ | ⟨hb, h1, hr⟩ | ⟨hc, anc, hb, h1, h2, hr⟩
    | ⟨hc, anc, t, hb, h1, h2, h3, hr⟩ | ⟨hc, anc, t, hb, h1, h2, h3, hr⟩ <;> rw [hr] at h ⊢
  · exact ⟨rfl, rfl⟩
  · exact ⟨rfl, rfl⟩
  · exact ⟨rfl, rfl⟩
  · exact ⟨rfl, rfl⟩
  · simp at h

/-- C9 witness: the empty body errors and indeed carries no URL keys. -/
theorem claim_C9_witness :
    (parse_package_email NodeList.nil).dropbox_url = none ∧
    (parse_package_email NodeList.nil).swift_url = none :=
  claim_C9 NodeList.nil (by decide)

/-- C3: for every body whose parse succeeds, the value stored in
`fields` under any label `L` is the value paired with `L`'s first
occurrence, in document order, of the row/cell traversal's pair
stream. -/
theorem claim_C3 (body : NodeList) (f : List (List Char × List Char)) (l : List Char)
    (hf : (parse_package_email body).fields = some f) :
    lookupField f l = lookupField (allPairs body) l := by
  rcases parse_cases body with ⟨hb, hr⟩ | ⟨hb, h1, hr⟩ | ⟨hc, anc, hb, h1, h2, hr⟩
    | ⟨hc, anc, t, hb, h1, h2, h3, hr⟩ | ⟨hc, anc, t, hb, h1, h2, h3, hr⟩ <;> rw [hr] at hf
  · exact Option.noConfusion hf
  · exact Option.noConfusion hf
  · exact Option.noConfusion hf
  · exact Option.noConfusion hf
  · have hf' : f = ((tableRows t).foldl processRow
        { fields := [], dropbox_url := none, swift_url := none }).fields :=
      (Option.some.inj hf).symm
    subst hf'
    have hrows : resolvedRows body = tableRows t := by
      unfold resolvedRows
      simp only [h1, h2]
    rw [foldl_processRow_fields]
    unfold allPairs
    rw [hrows, lookupField_insFold]
    rfl

/-- C3 witness: Scenario 5 — two rows labelled `GC Name:` with values
`Acme` then `Other` store `Acme`, the first occurrence. -/
theorem claim_C3_witness :
    (parse_package_email gcBody).fields = some [( "GC Name".data, "Acme".data)] ∧
    lookupField [( "GC Name".data, "Acme".data)] "GC Name".data =
      lookupField (allPairs gcBody) "GC Name".data :=
  ⟨by decide, claim_C3 gcBody [( "GC Name".data, "Acme".data)] "GC Name".data (by decide)⟩

/-- C4: every key of a successful result's field map is non-empty after
trimming and, uppercased, is not a member of the section-header set; in
particular no section-header string ever appears as a key. -/
theorem claim_C4 (body : NodeList) (f : List (List Char × List Char))
    (hf : (parse_package_email body).fields = some f) :
    (∀ p ∈ f, stripChars p.1 ≠ [] ∧ upperChars p.1 ∉ _SECTION_HEADERS) ∧
    (∀ s ∈ _SECTION_HEADERS, ∀ v, (s, v) ∉ f) := by
  have hmem : ∀ p ∈ f, p.1 ≠ [] ∧ stripChars p.1 = p.1 ∧
      upperChars p.1 ∉ _SECTION_HEADERS := by
    rcases parse_cases body with ⟨hb, hr⟩ | ⟨hb, h1, hr⟩ | ⟨hc, anc, hb, h1, h2, hr⟩
      | ⟨hc, anc, t, hb, h1, h2, h3, hr⟩ | ⟨hc, anc, t, hb, h1, h2, h3, hr⟩ <;> rw [hr] at hf
    · exact Option.noConfusion hf
    · exact Option.noConfusion hf
    · exact Option.noConfusion hf
    · exact Option.noConfusion hf
    · have hf' : f = ((tableRows t).foldl processRow
          { fields := [], dropbox_url := none, swift_url := none }).fields :=
        (Option.some.inj hf).symm
      subst hf'
      intro p hp
      rw [foldl_processRow_fields] at hp
      rcases mem_insFold _ _ _ hp with h' | h'
      · exact absurd h' (List.not_mem_nil p)
      · rcases List.mem_flatMap.mp h' with ⟨row, _, hpr⟩
        exact cellPairs_label_inv _ p hpr
  constructor
  · intro p hp
    rcases hmem p hp with ⟨hne, hst, hsec⟩
    exact ⟨by rw [hst]; exact hne, hsec⟩
  · intro s hs v hv
    rcases hmem (s, v) hv with ⟨_, _, hsec⟩
    have hup : upperChars s = s :=
      (by decide : ∀ x ∈ _SECTION_HEADERS, upperChars x = x) s hs
    rw [show ((s, v).1 : List Char) = s from rfl, hup] at hsec
    exact hsec hs

/-- C4 witness: on a body with an `Additional Notes:` row, the
section-header string is excluded and only the real field survives. -/
theorem claim_C4_witness :
    (parse_package_email c4Body).fields = some [( "Site ID".data, "ABC123".data)] ∧
    ( "ADDITIONAL NOTES".data, "hello".data) ∉ [( "Site ID".data, "ABC123".data)] :=
  ⟨by decide,
    (claim_C4 c4Body [( "Site ID".data, "ABC123".data)] (by decide)).2
      "ADDITIONAL NOTES".data (by decide) "hello".data⟩

/-- C6 counterexample: the claim quantifies over every input body, but
adding a hidden span (`<span style="font-size:0">deadbeef</span>`) to
the empty body changes the result — the empty body reports the
`empty body` error while the span-only body reports
`no package header found`. -/
theorem claim_C6_counterexample :
    isHiddenNode hiddenSpanEx = true ∧
    parse_package_email (NodeList.cons hiddenSpanEx NodeList.nil) ≠
      parse_package_email NodeList.nil := by
  decide

/-- C6 (amended): for every non-empty input body, inserting (hence,
read right to left, removing) a span whose inline style matches the
zero/near-zero font-size pattern, anywhere in the tree, never changes
the result of `parse_package_email`: such spans contribute nothing to
any extracted label, value, or header text. -/
theorem claim_C6_amended (t t' : NodeList) (h : InsertHidden t t')
    (ht : t ≠ NodeList.nil) :
    parse_package_email t' = parse_package_email t := by
  have ht' : t' ≠ NodeList.nil := by cases h <;> simp
  unfold parse_package_email
  rw [if_neg ht, if_neg ht', removeHidden_insert h]

/-- C6 witness: inserting the hidden span at the head of the Scenario 1
body leaves the result unchanged. -/
theorem claim_C6_witness :
    parse_package_email (NodeList.cons hiddenSpanEx c1Body) = parse_package_email c1Body :=
  claim_C6_amended c1Body (NodeList.cons hiddenSpanEx c1Body)
    (InsertHidden.head hiddenSpanEx (by decide) c1Body) (by decide)

/-- C8 counterexample: on a body whose first anchor href contains both
domain substrings, the first swiftprojects-matching href (namely that
dual-domain href) is consumed by the dropbox branch, and `swift_url`
receives the second swiftprojects href instead — refuting the claim as
stated. -/
theorem claim_C8_counterexample :
    (allHrefs c8Body).find? (fun h => containsSub "swiftprojects.io".data h) =
      some "http://dropbox.com/a/swiftprojects.io".data ∧
    (parse_package_email c8Body).parse_error = none ∧
    (parse_package_email c8Body).swift_url = some (some "http://swiftprojects.io/b".data) ∧
    "http://swiftprojects.io/b".data ≠ "http://dropbox.com/a/swiftprojects.io".data := by
  decide

/-- C8 (amended): provided no single anchor href contains both domain
substrings, a successful result sets `dropbox_url` to the first
dropbox-matching href of the resolved table's rows in document order and
`swift_url` to the first swiftprojects-matching href; every later anchor
matching an already-recorded domain is ignored. -/
theorem claim_C8_amended (body : NodeList) (d s : List Char)
    (hnd : ∀ h ∈ allHrefs body, ¬(containsSub "dropbox.com".data h = true ∧
      containsSub "swiftprojects.io".data h = true))
    (hd : (allHrefs body).find? (fun h => containsSub "dropbox.com".data h) = some d)
    (hs : (allHrefs body).find? (fun h => containsSub "swiftprojects.io".data h) = some s)
    (hok : (parse_package_email body).parse_error = none) :
    (parse_package_email body).dropbox_url = some (some d) ∧
    (parse_package_email body).swift_url = some (some s) := by
  rcases parse_cases body with ⟨hb, hr⟩ | ⟨hb, h1, hr⟩ | ⟨hc, anc, hb, h1, h2, hr⟩
    | ⟨hc, anc, t, hb, h1, h2, h3, hr⟩ | ⟨hc, anc, t, hb, h1, h2, h3, hr⟩ <;> rw [hr] at hok ⊢
  · exact (Option.some_ne_none _ hok).elim
  · exact (Option.some_ne_none _ hok).elim
  · exact (Option.some_ne_none _ hok).elim
  · exact (Option.some_ne_none _ hok).elim
  · have hfl : allHrefs body = (tableRows t).flatMap rowHrefs := by
      unfold allHrefs resolvedRows
      simp only [h1, h2]
    rw [hfl] at hd hs hnd
    constructor
    · show some ((tableRows t).foldl processRow
        { fields := [], dropbox_url := none, swift_url := none }).dropbox_url = _
      rw [foldl_processRow_dropbox, linkFold_fst_none, hd]
    · show some ((tableRows t).foldl processRow
        { fields := [], dropbox_url := none, swift_url := none }).swift_url = _
      rw [foldl_processRow_swift, linkFold_snd_none _ _ hnd, hs]

/-- C8 witness: Scenario 6 — a row with one dropbox anchor and one
swiftprojects anchor, then a later second dropbox anchor; both URLs are
the first matches and the later dropbox link is ignored. -/
theorem claim_C8_witness :
    (parse_package_email c8GoodBody).dropbox_url =
      some (some "http://dropbox.com/x".data) ∧
    (parse_package_email c8GoodBody).swift_url =
      some (some "http://swiftprojects.io/y".data) :=
  claim_C8_amended c8GoodBody "http://dropbox.com/x".data "http://swiftprojects.io/y".data
    (by decide) (by decide) (by decide) (by decide)

/-- C10: every label/value pair of a successful result comes from a
consecutive pair of *direct* child cells of some row of the resolved
table, and the stored value is the whitespace-collapsed
`get_text`-text of the entire subtree of the value cell (which includes
the text of any table nested inside that cell). -/
theorem claim_C10 (body : NodeList) (f : List (List Char × List Char)) (l v : List Char)
    (hf : (parse_package_email body).fields = some f) (hlv : (l, v) ∈ f) :
    ∃ row ∈ resolvedRows body, ∃ i, ∃ h1 : i < (directCells row).length,
      ∃ h2 : i + 1 < (directCells row).length,
      (nodeTag ((directCells row).get ⟨i, h1⟩) = "th".data ∨
        endsWithColon (_clean_text (get_text ((directCells row).get ⟨i, h1⟩))) = true) ∧
      l = labelOfText (_clean_text (get_text ((directCells row).get ⟨i, h1⟩))) ∧
      v = _clean_text (get_text ((directCells row).get ⟨i + 1, h2⟩)) := by
  rcases parse_cases body with ⟨hb, hr⟩ | ⟨hb, h1, hr⟩ | ⟨hc, anc, hb, h1, h2, hr⟩
    | ⟨hc, anc, t, hb, h1, h2, h3, hr⟩ | ⟨hc, anc, t, hb, h1, h2, h3, hr⟩ <;> rw [hr] at hf
  · exact Option.noConfusion hf
  · exact Option.noConfusion hf
  · exact Option.noConfusion hf
  · exact Option.noConfusion hf
  · have hf' : f = ((tableRows t).foldl processRow
        { fields := [], dropbox_url := none, swift_url := none }).fields :=
      (Option.some.inj hf).symm
    subst hf'
    rw [foldl_processRow_fields] at hlv
    rcases mem_insFold _ _ _ hlv with h' | h'
    · exact absurd h' (List.not_mem_nil _)
    · rcases List.mem_flatMap.mp h' with ⟨row, hrow, hpr⟩
      have hrows : resolvedRows body = tableRows t := by
        unfold resolvedRows
        simp only [h1, h2]
      rcases cellPairs_pos (directCells row) (l, v) hpr with ⟨i, hi1, hi2, hlab, hl, hv⟩
      exact ⟨row, by rw [hrows]; exact hrow, i, hi1, hi2, hlab, hl, hv⟩

/-- C10 witness: a value cell containing a nested table stores the
collapsed text of its whole subtree (`Outer Inner`), nested-table text
included. -/
theorem claim_C10_witness :
    (parse_package_email c10Body).fields = some [( "Notes".data, "Outer Inner".data)] ∧
    (∃ row ∈ resolvedRows c10Body, ∃ i, ∃ h1 : i < (directCells row).length,
      ∃ h2 : i + 1 < (directCells row).length,
      (nodeTag ((directCells row).get ⟨i, h1⟩) = "th".data ∨
        endsWithColon (_clean_text (get_text ((directCells row).get ⟨i, h1⟩))) = true) ∧
      "Notes".data = labelOfText (_clean_text (get_text ((directCells row).get ⟨i, h1⟩))) ∧
      "Outer Inner".data = _clean_text (get_text ((directCells row).get ⟨i + 1, h2⟩))) :=
  ⟨by decide,
    claim_C10 c10Body [( "Notes".data, "Outer Inner".data)] "Notes".data "Outer Inner".data
      (by decide) (by decide)⟩
